import Mathlib

/-!
Verification of the nbabetinfo pipeline: a shallow embedding of the table
locator, row parsers, field normalizers (from `scrape_teamrankings_nba.py`
and `scrape_ats_results.py`) and the metrics aggregators
(`calculate_metrics.py`, `calculate_ats_metrics.py`), together with
theorems settling the claims about them.

Python `float` values are modelled by `ℚ`: every numeral occurring in the
scraped data and in the claims is an exact decimal, and all arithmetic the
aggregators perform on them (sums, means, negation, comparison) is exact on
such values.
-/

namespace NbaBetInfo

/-- Python whitespace characters recognised by `str.strip()` and `\s`
(ASCII fragment; the scraped cells contain no other whitespace once
non-breaking spaces have been folded by `clean_text`). -/
def isPySpace (c : Char) : Bool :=
  c = ' ' || c = '\t' || c = '\n' || c = '\r' || c = '\x0b' || c = '\x0c'

/-- Drop leading Python whitespace from a character list. -/
def dropLeadingWs : List Char → List Char
  | [] => []
  | c :: cs => if isPySpace c then dropLeadingWs cs else c :: cs

/-- Python `str.strip()` on a character list: drop leading and trailing
whitespace. -/
def pyStripList (cs : List Char) : List Char :=
  ((dropLeadingWs ((dropLeadingWs cs).reverse)).reverse)

/-- Python `str.strip()`. -/
def pyStrip (s : String) : String := ⟨pyStripList s.data⟩

/-- Python `str.lower()` (ASCII range, which is all the header labels and
sentinels use). -/
def pyLower (s : String) : String := ⟨s.data.map Char.toLower⟩

/-- `clean_text` from both scrapers: fold non-breaking spaces (U+00A0) to
plain spaces, then strip.  (`None` never reaches the Lean model: cell
texts are always strings.) -/
def clean_text (s : String) : String :=
  pyStrip ⟨s.data.map (fun c => if c = '\xa0' then ' ' else c)⟩

/-- ASCII digit test. -/
def isDigitChar (c : Char) : Bool := '0' ≤ c && c ≤ '9'

/-- Digit or dot, the character class `[\d.]` of `parse_total`. -/
def isDotDigit (c : Char) : Bool := isDigitChar c || c = '.'

/-- Numeric value of a digit run, most significant first. -/
def natFromDigits (cs : List Char) : Nat :=
  cs.foldl (fun acc c => 10 * acc + (c.toNat - ('0').toNat)) 0

/-- Recognition of an unsigned decimal literal: digits with at most one
dot and at least one digit (so `"229.5"`, `"229."`, `".5"`, `"7"` parse;
`""`, `"."`, `"1.2.3"`, anything with other characters do not), exactly
the strings Python `float` accepts after sign removal in the decimal
fragment.  Returns the digit mantissa and the fraction length, so the
denoted value is `mantissa / 10 ^ fracLen`. -/
def parseFloatRep (cs : List Char) : Option (Nat × Nat) :=
  if cs.all isDotDigit && cs.count ('.') ≤ 1 && cs.any isDigitChar then
    some (natFromDigits (cs.filter isDigitChar),
          ((cs.dropWhile (fun c => c ≠ '.')).drop 1).length)
  else none

/-- Sign/mantissa/fraction-length representation of Python `float(text)`:
strip whitespace, one optional leading sign, then an unsigned decimal
literal.  `none` where Python raises `ValueError`.  (The
exponent/`inf`/`nan`/underscore forms of the builtin are outside the
decimal fragment the scraped data uses and are not modelled.) -/
def pyFloatRep (s : String) : Option (Bool × Nat × Nat) :=
  match pyStripList s.data with
  | '+' :: cs => (parseFloatRep cs).map (fun p => (false, p.1, p.2))
  | '-' :: cs => (parseFloatRep cs).map (fun p => (true, p.1, p.2))
  | cs => (parseFloatRep cs).map (fun p => (false, p.1, p.2))

/-- The rational value denoted by a sign/mantissa/fraction-length
representation. -/
def floatRepVal (neg : Bool) (m k : Nat) : ℚ :=
  (if neg then -(m : ℚ) else (m : ℚ)) / (10 : ℚ) ^ k

/-- Model of Python `float(text)` as a rational value. -/
def pyFloat (s : String) : Option ℚ :=
  (pyFloatRep s).map (fun p => floatRepVal p.1 p.2.1 p.2.2)

/-- Value of an unsigned integer literal: a nonempty digit run. -/
def parseIntBody (cs : List Char) : Option Nat :=
  if cs ≠ [] && cs.all isDigitChar then some (natFromDigits cs) else none

/-- Model of Python `int(text)`: strip whitespace, one optional leading
sign, then a nonempty digit run; `none` where Python raises `ValueError`. -/
def pyInt (s : String) : Option Int :=
  match pyStripList s.data with
  | '+' :: cs => (parseIntBody cs).map (fun n => (n : Int))
  | '-' :: cs => (parseIntBody cs).map (fun n => -(n : Int))
  | cs => (parseIntBody cs).map (fun n => (n : Int))

end NbaBetInfo

namespace NbaBetInfo

/-- `parse_spread` from `scrape_teamrankings_nba.py`: clean, reject the
sentinels, remove every `+` character (`text.replace` replaces all
occurrences), then float-parse. -/
def parse_spread_tr (text : String) : Option ℚ :=
  let t := clean_text text
  if t = "" || t = "-" || pyLower t = ("n/a") || pyLower t = ("pk") then none
  else pyFloat ⟨t.data.filter (fun c => c ≠ '+')⟩

/-- `parse_spread` from `scrape_ats_results.py`: clean, reject the
sentinels, then float-parse directly (the sign handling is the float
parse's own). -/
def parse_spread_ats (text : String) : Option ℚ :=
  let t := clean_text text
  if t = "" || t = "-" || pyLower t = ("n/a") || pyLower t = ("pk") then none
  else pyFloat t

/-- `parse_diff` from `scrape_ats_results.py`. -/
def parse_diff (text : String) : Option ℚ :=
  let t := clean_text text
  if t = "" || t = "-" || pyLower t = ("n/a") then none
  else pyFloat t

/-- `parse_int_or_none` from `scrape_teamrankings_nba.py`. -/
def parse_int_or_none (text : String) : Option Int :=
  let t := clean_text text
  if t = "" || t = "-" || pyLower t = ("n/a") then none
  else pyInt t

/-- After `\s+`, capture the group `([\d.]+)`: one or more whitespace
characters followed by a maximal nonempty digit/dot run (greedy matching
needs no backtracking here, as the three character classes are disjoint). -/
def wsThenNum (cs : List Char) : Option (List Char) :=
  match cs with
  | c :: rest =>
    if isPySpace c then
      let g := (rest.dropWhile isPySpace).takeWhile isDotDigit
      if g ≠ [] then some g else none
    else none
  | [] => none

/-- Try to match `X[Y]?\s+([\d.]+)` at the head of the list, `X` and `Y`
compared case-insensitively (e.g. `[Oo][vV]?` with `x := 'o'`, `y := 'v'`).
Returns the captured digit/dot run. -/
def ovUnMatchAt (x y : Char) : List Char → Option (List Char)
  | [] => none
  | c :: rest =>
    if c.toLower = x then
      match rest with
      | d :: rest2 => if d.toLower = y then wsThenNum rest2 else wsThenNum rest
      | [] => none
    else none

/-- `re.search` of `X[Y]?\s+([\d.]+)`: the leftmost starting position that
matches, scanning left to right. -/
def ovUnSearch (x y : Char) : List Char → Option (List Char)
  | [] => none
  | c :: rest =>
    match ovUnMatchAt x y (c :: rest) with
    | some g => some g
    | none => ovUnSearch x y rest

/-- Result of a Python computation that may propagate an uncaught
`ValueError`. -/
inductive PyRes (α : Type) where
  | ok : α → PyRes α
  | valueError : PyRes α
deriving DecidableEq

/-- `parse_total` from `scrape_teamrankings_nba.py`.  The two calls
`float(match.group(1))` are NOT inside a try/except, so a captured group
that is not a valid float literal (the group class `[\d.]+` admits e.g.
`"."`) propagates an uncaught `ValueError`, modelled by
`PyRes.valueError`; only the final fallback `float(text)` is protected. -/
def parse_total (text : String) : PyRes (Option ℚ) :=
  let t := clean_text text
  if t = "" || t = "-" || pyLower t = ("n/a") then PyRes.ok none
  else
    match ovUnSearch 'o' 'v' t.data with
    | some g =>
      match parseFloatRep g with
      | some p => PyRes.ok (some (floatRepVal false p.1 p.2))
      | none => PyRes.valueError
    | none =>
      match ovUnSearch 'u' 'n' t.data with
      | some g =>
        match parseFloatRep g with
        | some p => PyRes.ok (some (floatRepVal false p.1 p.2))
        | none => PyRes.valueError
      | none => PyRes.ok (pyFloat t)

/-- Consume `\s+`: at least one whitespace character, greedily. -/
def dropWsPlus (cs : List Char) : Option (List Char) :=
  match cs with
  | c :: rest => if isPySpace c then some (rest.dropWhile isPySpace) else none
  | [] => none

/-- Consume `(\d+)`: a maximal nonempty digit run, returning its value and
the remainder. -/
def takeDigitsPlus (cs : List Char) : Option (Nat × List Char) :=
  if cs.takeWhile isDigitChar ≠ [] then
    some (natFromDigits (cs.takeWhile isDigitChar), cs.dropWhile isDigitChar)
  else none

/-- Anchored match of `([WL])\s+by\s+(\d+)` (`re.match` in
`parse_result`). -/
def resultMatch (cs : List Char) : Option (Char × Nat) :=
  match cs with
  | c :: rest =>
    if c = 'W' || c = 'L' then
      match dropWsPlus rest with
      | some r1 =>
        match r1 with
        | 'b' :: 'y' :: r2 =>
          match dropWsPlus r2 with
          | some r3 =>
            match takeDigitsPlus r3 with
            | some (m, _) => some (c, m)
            | none => none
          | none => none
        | _ => none
      | none => none
    else none
  | [] => none

/-- `parse_result` from `scrape_ats_results.py`: clean, reject empty and
`"-"`, then the anchored `([WL])\s+by\s+(\d+)` match. -/
def parse_result (text : String) : Option Char × Option Nat :=
  let t := clean_text text
  if t = "" || t = "-" then (none, none)
  else
    match resultMatch t.data with
    | some (o, m) => (some o, some m)
    | none => (none, none)

/-- Match `[WL]\s+(\d+)\s*-\s*(\d+)` at the head of the list
(`parse_scores`); the greedy runs need no backtracking as digits,
whitespace and `-` are disjoint. -/
def scoresMatchAt (cs : List Char) : Option (Nat × Nat) :=
  match cs with
  | c :: rest =>
    if c = 'W' || c = 'L' then
      match dropWsPlus rest with
      | some r1 =>
        match takeDigitsPlus r1 with
        | some (a, r2) =>
          match r2.dropWhile isPySpace with
          | '-' :: r3 =>
            match takeDigitsPlus (r3.dropWhile isPySpace) with
            | some (b, _) => some (a, b)
            | none => none
          | _ => none
        | none => none
      | none => none
    else none
  | [] => none

/-- `re.search` of `[WL]\s+(\d+)\s*-\s*(\d+)`: leftmost match. -/
def scoresSearch : List Char → Option (Nat × Nat)
  | [] => none
  | c :: rest =>
    match scoresMatchAt (c :: rest) with
    | some r => some r
    | none => scoresSearch rest

/-- `parse_scores` from `scrape_teamrankings_nba.py`: empty text gives
`(None, None)`, otherwise search for `[WL]\s+(\d+)\s*-\s*(\d+)`. -/
def parse_scores (result_text : String) : Option Nat × Option Nat :=
  if result_text = "" then (none, none)
  else
    match scoresSearch result_text.data with
    | some (a, b) => (some a, some b)
    | none => (none, none)

/-! ## Table location -/

/-- `lhs` is a prefix of `rhs` (character lists). -/
def listPfx : List Char → List Char → Bool
  | [], _ => true
  | _ :: _, [] => false
  | a :: as, b :: bs => a = b && listPfx as bs

/-- `needle` occurs as a contiguous substring of the character list
(Python `in` on strings). -/
def listContainsSub (needle : List Char) : List Char → Bool
  | [] => needle.isEmpty
  | c :: rest => listPfx needle (c :: rest) || listContainsSub needle rest

/-- Python `needle in hay` for strings. -/
def strContainsSub (hay needle : String) : Bool :=
  listContainsSub needle.data hay.data

/-- A parsed HTML table as the scrapers see it through BeautifulSoup.
`theadRow = none` models a table without `<thead>`; `some none` a
`<thead>` without a `<tr>`; `some (some hs)` the `<th>` texts of the first
header row.  `tbody` likewise models an optional `<tbody>` whose rows are
lists of `<td>` cell texts. -/
structure Table where
  theadRow : Option (Option (List String))
  tbody : Option (List (List String))
deriving DecidableEq

/-- The cleaned, lower-cased header texts of a table, when it has a
header row (`[clean_text(th.get_text()).lower() for th in ...]`). -/
def headerTexts (t : Table) : Option (List String) :=
  match t.theadRow with
  | some (some ths) => some (ths.map (fun h => pyLower (clean_text h)))
  | _ => none

/-- The header check of `find_betting_table`: every required column name
is a substring of the space-joined header text. -/
def bettingTableOk (t : Table) : Bool :=
  match headerTexts t with
  | some hs =>
    strContainsSub (String.intercalate (" ") hs) ("date") &&
    strContainsSub (String.intercalate (" ") hs) ("opponent") &&
    strContainsSub (String.intercalate (" ") hs) ("result") &&
    strContainsSub (String.intercalate (" ") hs) ("spread") &&
    strContainsSub (String.intercalate (" ") hs) ("total")
  | none => false

/-- `find_betting_table` from `scrape_teamrankings_nba.py`: scan the
tables in document order, returning the first whose headers pass
`bettingTableOk`. -/
def find_betting_table : List Table → Option Table
  | [] => none
  | t :: ts => if bettingTableOk t then some t else find_betting_table ts

/-- The header check of `find_ats_table`: `"date"`, `"opponent"` and
`"diff"` must occur as exact header cells, `"line"` as a substring of the
space-joined header text. -/
def atsTableOk (t : Table) : Bool :=
  match headerTexts t with
  | some hs =>
    hs.contains ("date") && hs.contains ("opponent") &&
    strContainsSub (String.intercalate (" ") hs) ("line") &&
    hs.contains ("diff")
  | none => false

/-- `find_ats_table` from `scrape_ats_results.py`: first table in document
order passing `atsTableOk`. -/
def find_ats_table : List Table → Option Table
  | [] => none
  | t :: ts => if atsTableOk t then some t else find_ats_table ts

/-! ## Row parsing -/

/-- One game record produced by `parse_betting_table`
(`scrape_teamrankings_nba.py`). -/
structure BettingGame where
  date : String
  opponent : String
  home_away : String
  result_raw : String
  team_score : Option Nat
  opp_score : Option Nat
  spread : Option ℚ
  total : Option ℚ
  moneyline : Option Int
deriving DecidableEq

/-- The body of `parse_betting_table`'s loop over `tbody` rows.  A row
with fewer than 9 cells is skipped, as is one whose cleaned first cell
lower-cases to `"date"`, contains `"note:"`, or is empty.  An accepted
row's `parse_total` call is outside any try/except, so its `ValueError`
aborts the whole parse (dropping any games already collected). -/
def parse_betting_table : List (List String) → PyRes (List BettingGame)
  | [] => PyRes.ok []
  | cells :: rest =>
    if cells.length < 9 then parse_betting_table rest
    else
      if pyLower (clean_text (cells.getD 0 (""))) = ("date") ||
         strContainsSub (pyLower (clean_text (cells.getD 0 ("")))) ("note:") ||
         clean_text (cells.getD 0 ("")) = "" then
        parse_betting_table rest
      else
        match parse_total (clean_text (cells.getD 7 (""))) with
        | PyRes.valueError => PyRes.valueError
        | PyRes.ok total =>
          match parse_betting_table rest with
          | PyRes.valueError => PyRes.valueError
          | PyRes.ok games =>
            PyRes.ok
              ({ date := clean_text (cells.getD 0 (""))
                 opponent := clean_text (cells.getD 1 (""))
                 home_away :=
                   if pyLower (clean_text (cells.getD 3 (""))) = ("home") ||
                      pyLower (clean_text (cells.getD 3 (""))) = ("away") then
                     pyLower (clean_text (cells.getD 3 ("")))
                   else "home"
                 result_raw := clean_text (cells.getD 2 (""))
                 team_score := (parse_scores (clean_text (cells.getD 2 ("")))).1
                 opp_score := (parse_scores (clean_text (cells.getD 2 ("")))).2
                 spread := parse_spread_tr (clean_text (cells.getD 6 ("")))
                 total := total
                 moneyline := parse_int_or_none (clean_text (cells.getD 8 (""))) } :: games)

/-- One game record produced by `parse_ats_table`
(`scrape_ats_results.py`). -/
structure AtsGame where
  date : String
  home_away : String
  opponent : String
  opp_rank : Option Int
  spread : Option ℚ
  result : Option Char
  margin : Option Nat
  ats_diff : Option ℚ
deriving DecidableEq

/-- The `opp_rank` computation of `parse_ats_table`:
`int(opp_rank_text) if opp_rank_text and opp_rank_text != "-" else None`,
with `ValueError` caught and mapped to `None`. -/
def parseOppRank (t : String) : Option Int :=
  if t = "" || t = "-" then none else pyInt t

/-- The body of `parse_ats_table`'s loop over `tbody` rows.  A row with
fewer than 7 cells is skipped, as is one whose cleaned first cell
lower-cases to `"date"`, is empty, or is the placeholder dash.  Nothing
in this parser can raise. -/
def parse_ats_table : List (List String) → List AtsGame
  | [] => []
  | cells :: rest =>
    if cells.length < 7 then parse_ats_table rest
    else
      if pyLower (clean_text (cells.getD 0 (""))) = ("date") ||
         clean_text (cells.getD 0 ("")) = "" ||
         clean_text (cells.getD 0 ("")) = "-" then
        parse_ats_table rest
      else
        { date := clean_text (cells.getD 0 (""))
          home_away :=
            if pyLower (clean_text (cells.getD 1 (""))) = ("home") ||
               pyLower (clean_text (cells.getD 1 (""))) = ("away") ||
               pyLower (clean_text (cells.getD 1 (""))) = ("neutral") then
              pyLower (clean_text (cells.getD 1 ("")))
            else "home"
          opponent := clean_text (cells.getD 2 (""))
          opp_rank := parseOppRank (clean_text (cells.getD 3 ("")))
          spread := parse_spread_ats (clean_text (cells.getD 4 ("")))
          result := (parse_result (clean_text (cells.getD 5 ("")))).1
          margin := (parse_result (clean_text (cells.getD 5 ("")))).2
          ats_diff := parse_diff (clean_text (cells.getD 6 ("")))
        } :: parse_ats_table rest

/-! ## Metrics aggregation

The aggregators read the CSV files the scrapers wrote.  A CSV row is
modelled with typed optional fields: the writers emit the empty string for
`None` and the repr of the value otherwise, and the readers' emptiness
guards and `int`/`float` re-parses succeed exactly on the non-`None`
fields, so `Option` faithfully captures the round trip. -/

/-- One row of an `ats_results_<slug>.csv` file as read by
`calculate_team_ats_metrics` (only the fields the function uses). -/
structure AtsCsvRow where
  ats_diff : Option ℚ
  spread : Option ℚ
deriving DecidableEq

/-- The loop accumulator of `calculate_team_ats_metrics`. -/
structure AtsAcc where
  ats_diffs : List ℚ
  fav_diffs : List ℚ
  dog_diffs : List ℚ
  ats_wins : Nat
  ats_losses : Nat
deriving DecidableEq

/-- One iteration of `calculate_team_ats_metrics`'s row loop: skip when
`ats_diff` is absent, skip when the `float(row['spread'])` re-parse fails
(i.e. `spread` is absent — the whole try-block is abandoned, so nothing
is appended), otherwise append to `ats_diffs`, to `fav_diffs` when the
spread is negative, to `dog_diffs` when it is positive (pick'em goes to
neither), and count a win when the diff is positive, else a loss. -/
def atsStep (acc : AtsAcc) (row : AtsCsvRow) : AtsAcc :=
  match row.ats_diff, row.spread with
  | some d, some s =>
    { ats_diffs := acc.ats_diffs ++ [d]
      fav_diffs := if s < 0 then acc.fav_diffs ++ [d] else acc.fav_diffs
      dog_diffs :=
        if s < 0 then acc.dog_diffs
        else if 0 < s then acc.dog_diffs ++ [d] else acc.dog_diffs
      ats_wins := if 0 < d then acc.ats_wins + 1 else acc.ats_wins
      ats_losses := if 0 < d then acc.ats_losses else acc.ats_losses + 1 }
  | _, _ => acc

/-- The metrics dictionary returned by `calculate_team_ats_metrics`. -/
structure AtsMetrics where
  TOTAL_DIFF : ℚ
  FAV_DIFF : Option ℚ
  DOG_DIFF : Option ℚ
  CRI : ℚ
  games_played : Nat
  fav_games : Nat
  dog_games : Nat
  ats_wins : Nat
  ats_losses : Nat
  ats_decisions : Nat
deriving DecidableEq

/-- Arithmetic mean of a list of rationals (`sum(xs) / len(xs)`). -/
def listMean (xs : List ℚ) : ℚ := xs.sum / (xs.length : ℚ)

/-- `calculate_team_ats_metrics` from `calculate_ats_metrics.py`, applied
to the parsed rows of one team's CSV file: fold the row loop, return
`None` when no row qualified, otherwise the metrics dictionary. -/
def calculate_team_ats_metrics (rows : List AtsCsvRow) : Option AtsMetrics :=
  let acc := rows.foldl atsStep ⟨[], [], [], 0, 0⟩
  if acc.ats_diffs = [] then none
  else
    some
      { TOTAL_DIFF := listMean acc.ats_diffs
        FAV_DIFF := if acc.fav_diffs = [] then none else some (listMean acc.fav_diffs)
        DOG_DIFF := if acc.dog_diffs = [] then none else some (listMean acc.dog_diffs)
        CRI :=
          if 0 < acc.ats_wins + acc.ats_losses then
            (acc.ats_wins : ℚ) / ((acc.ats_wins + acc.ats_losses : Nat) : ℚ)
          else 0
        games_played := acc.ats_diffs.length
        fav_games := acc.fav_diffs.length
        dog_games := acc.dog_diffs.length
        ats_wins := acc.ats_wins
        ats_losses := acc.ats_losses
        ats_decisions := acc.ats_wins + acc.ats_losses }

/-- `get_all_team_metrics` from `calculate_ats_metrics.py`, over an
association list of (team slug, parsed CSV rows): teams whose metrics
computation returns `None` are left out of the mapping. -/
def get_all_team_metrics (files : List (String × List AtsCsvRow)) :
    List (String × AtsMetrics) :=
  files.filterMap (fun f => (calculate_team_ats_metrics f.2).map (fun m => (f.1, m)))

/-- One row of a `teamrankings_<slug>.csv` file as read by
`calculate_team_metrics` (only the fields the function uses). -/
structure BettingCsvRow where
  team_score : Option Int
  opp_score : Option Int
  spread : Option ℚ
  total : Option ℚ
deriving DecidableEq

/-- The loop accumulator of `calculate_team_metrics`. -/
structure BetAcc where
  ats_margins : List ℚ
  ats_wins : Nat
  ats_decisions : Nat
  total_margins : List ℚ
deriving DecidableEq

/-- One iteration of `calculate_team_metrics`'s row loop: skip when either
score is absent, skip when either the spread or the total is absent, else
record the ATS margin `team_score - opp_score + spread`, a decision, a win
when the margin is positive, and the total margin
`team_score + opp_score - total`. -/
def betStep (acc : BetAcc) (row : BettingCsvRow) : BetAcc :=
  match row.team_score, row.opp_score with
  | some ts, some os =>
    match row.spread, row.total with
    | some sp, some tot =>
      { ats_margins := acc.ats_margins ++ [((ts : ℚ) - (os : ℚ)) + sp]
        ats_wins :=
          if 0 < ((ts : ℚ) - (os : ℚ)) + sp then acc.ats_wins + 1 else acc.ats_wins
        ats_decisions := acc.ats_decisions + 1
        total_margins := acc.total_margins ++ [((ts : ℚ) + (os : ℚ)) - tot] }
    | _, _ => acc
  | _, _ => acc

/-- The metrics dictionary returned by `calculate_team_metrics`. -/
structure Metrics where
  SPI : ℚ
  AVI : ℚ
  CRI : ℚ
  TPI : ℚ
  games_played : Nat
  ats_wins : Nat
  ats_decisions : Nat
deriving DecidableEq

/-- `calculate_team_metrics` from `calculate_metrics.py`, applied to the
parsed rows of one team's CSV file. -/
def calculate_team_metrics (rows : List BettingCsvRow) : Option Metrics :=
  let acc := rows.foldl betStep ⟨[], 0, 0, []⟩
  if acc.ats_margins = [] then none
  else
    some
      { SPI := listMean acc.ats_margins
        AVI := -(listMean acc.ats_margins)
        CRI :=
          if 0 < acc.ats_decisions then (acc.ats_wins : ℚ) / (acc.ats_decisions : ℚ)
          else 0
        TPI := if acc.total_margins = [] then 0 else listMean acc.total_margins
        games_played := acc.ats_margins.length
        ats_wins := acc.ats_wins
        ats_decisions := acc.ats_decisions }

/-! ## Qualifying subsets

Characterisations of which rows the two aggregators actually use, for the
theorems below: a row qualifies exactly when every field its loop
iteration dereferences is present. -/

/-- The (diff, spread) pairs of the rows `calculate_team_ats_metrics`
uses: both `ats_diff` and `spread` must be present. -/
def atsQualifying (rows : List AtsCsvRow) : List (ℚ × ℚ) :=
  rows.filterMap (fun r =>
    match r.ats_diff, r.spread with
    | some d, some s => some (d, s)
    | _, _ => none)

/-- The (ATS margin, total margin) pairs of the rows
`calculate_team_metrics` uses: both scores, the spread and the total must
all be present. -/
def betQualifying (rows : List BettingCsvRow) : List (ℚ × ℚ) :=
  rows.filterMap (fun r =>
    match r.team_score, r.opp_score, r.spread, r.total with
    | some ts, some os, some sp, some tot =>
      some (((ts : ℚ) - (os : ℚ)) + sp, ((ts : ℚ) + (os : ℚ)) - tot)
    | _, _, _, _ => none)

end NbaBetInfo
namespace NbaBetInfo

lemma atsQualifying_cons (r : AtsCsvRow) (rest : List AtsCsvRow) :
    atsQualifying (r :: rest) =
      (match r.ats_diff, r.spread with
       | some d, some s => (d, s) :: atsQualifying rest
       | _, _ => atsQualifying rest) := by
  rcases r with ⟨od, os⟩
  rcases od with _ | d <;> rcases os with _ | s <;> simp [atsQualifying]

lemma atsFold_spec (rows : List AtsCsvRow) : ∀ acc : AtsAcc,
    rows.foldl atsStep acc =
      { ats_diffs := acc.ats_diffs ++ (atsQualifying rows).map Prod.fst
        fav_diffs := acc.fav_diffs ++
          ((atsQualifying rows).filter (fun p => decide (p.2 < 0))).map Prod.fst
        dog_diffs := acc.dog_diffs ++
          ((atsQualifying rows).filter (fun p => decide (0 < p.2))).map Prod.fst
        ats_wins := acc.ats_wins +
          ((atsQualifying rows).filter (fun p => decide (0 < p.1))).length
        ats_losses := acc.ats_losses +
          ((atsQualifying rows).filter (fun p => decide (p.1 ≤ 0))).length } := by
  induction rows with
  | nil => intro acc; simp [atsQualifying]
  | cons r rest ih =>
    intro acc
    rcases r with ⟨od, os⟩
    rcases od with _ | d <;> rcases os with _ | s
    · simpa [atsStep, atsQualifying_cons] using ih acc
    · simpa [atsStep, atsQualifying_cons] using ih acc
    · simpa [atsStep, atsQualifying_cons] using ih acc
    · rw [List.foldl_cons, ih]
      by_cases hs : s < 0
      · by_cases hd : (0 : ℚ) < d <;>
          simp [atsStep, atsQualifying_cons, hs, asymm hs, hd, not_lt.mp, le_of_not_lt,
            not_le.mpr, List.append_assoc, Nat.add_assoc, Nat.add_comm 1]
      · by_cases hs2 : (0 : ℚ) < s <;> by_cases hd : (0 : ℚ) < d <;>
          simp [atsStep, atsQualifying_cons, hs, hs2, hd, not_lt.mp, le_of_not_lt,
            not_le.mpr, List.append_assoc, Nat.add_assoc, Nat.add_comm 1]

end NbaBetInfo

namespace NbaBetInfo

lemma betQualifying_cons (r : BettingCsvRow) (rest : List BettingCsvRow) :
    betQualifying (r :: rest) =
      (match r.team_score, r.opp_score, r.spread, r.total with
       | some ts, some os, some sp, some tot =>
         (((ts : ℚ) - (os : ℚ)) + sp, ((ts : ℚ) + (os : ℚ)) - tot) :: betQualifying rest
       | _, _, _, _ => betQualifying rest) := by
  rcases r with ⟨ots, oos, osp, otot⟩
  rcases ots with _ | ts <;> rcases oos with _ | os <;> rcases osp with _ | sp <;>
    rcases otot with _ | tot <;> simp [betQualifying]

lemma betFold_spec (rows : List BettingCsvRow) : ∀ acc : BetAcc,
    rows.foldl betStep acc =
      { ats_margins := acc.ats_margins ++ (betQualifying rows).map Prod.fst
        ats_wins := acc.ats_wins +
          ((betQualifying rows).filter (fun p => decide (0 < p.1))).length
        ats_decisions := acc.ats_decisions + (betQualifying rows).length
        total_margins := acc.total_margins ++ (betQualifying rows).map Prod.snd } := by
  induction rows with
  | nil => intro acc; simp [betQualifying]
  | cons r rest ih =>
    intro acc
    rcases r with ⟨ots, oos, osp, otot⟩
    rcases ots with _ | ts <;> rcases oos with _ | os <;> rcases osp with _ | sp <;>
      rcases otot with _ | tot <;>
      try (simpa [betStep, betQualifying_cons] using ih acc)
    rw [List.foldl_cons, ih]
    by_cases hm : (0 : ℚ) < ((ts : ℚ) - (os : ℚ)) + sp <;>
      simp [betStep, betQualifying_cons, hm, List.append_assoc, Nat.add_assoc,
        Nat.add_comm 1]

lemma length_filter_pos_add_nonpos (l : List (ℚ × ℚ)) :
    ((l.filter (fun p => decide (0 < p.1))).length +
       (l.filter (fun p => decide (p.1 ≤ 0))).length) = l.length := by
  induction l with
  | nil => simp
  | cons x xs ih =>
    by_cases hx : (0 : ℚ) < x.1
    · simp [List.filter_cons, hx, not_le.mpr hx]
      omega
    · simp [List.filter_cons, hx, not_lt.mp hx]
      omega

end NbaBetInfo
namespace NbaBetInfo

/-! ## Claims -/

/-- C1, counterexample to the claim as stated: the schedule/betting
aggregator does NOT filter independently.  On three rows — one complete,
one with a computable ATS diff but no total, one with both scores and a
total but no spread — only the complete row contributes: the code reports
SPI 5 and TPI -10 over a single game, whereas independent filtering would
give the two-element means -3/2 and 0. -/
theorem C1_counterexample :
    (calculate_team_metrics
        [⟨some 100, some 90, some (-5), some 200⟩,
         ⟨some 90, some 100, some 2, none⟩,
         ⟨some 100, some 100, none, some 190⟩]).map
      (fun m => (m.SPI, m.TPI, m.games_played)) = some (5, -10, 1) ∧
    listMean [(5 : ℚ), -8] = -3/2 ∧ (5 : ℚ) ≠ -3/2 ∧
    listMean [(-10 : ℚ), 10] = 0 ∧ (-10 : ℚ) ≠ 0 := by
  refine ⟨?_, by norm_num [listMean], by norm_num, by norm_num [listMean], by norm_num⟩
  norm_num [calculate_team_metrics, betStep, listMean]

/-- C1 (amended): both aggregators filter conjunctively, not
independently.  `calculate_team_metrics` uses exactly the rows with both
scores, the spread AND the total all present — the same subset for
SPI, TPI and the decision count alike — and `calculate_team_ats_metrics`
uses exactly the rows with both `ats_diff` and `spread` present. -/
theorem C1_theorem :
    (∀ (rows : List BettingCsvRow) (m : Metrics),
        calculate_team_metrics rows = some m →
        m.games_played = (betQualifying rows).length ∧
        m.ats_decisions = (betQualifying rows).length ∧
        m.SPI = listMean ((betQualifying rows).map Prod.fst) ∧
        m.TPI = listMean ((betQualifying rows).map Prod.snd)) ∧
    (∀ (rows : List AtsCsvRow) (m : AtsMetrics),
        calculate_team_ats_metrics rows = some m →
        m.games_played = (atsQualifying rows).length ∧
        m.ats_decisions = (atsQualifying rows).length ∧
        m.TOTAL_DIFF = listMean ((atsQualifying rows).map Prod.fst)) := by
  constructor
  · intro rows m h
    rw [calculate_team_metrics, betFold_spec] at h
    simp only [List.nil_append, Nat.zero_add] at h
    by_cases hq : (betQualifying rows).map Prod.fst = []
    · rw [if_pos hq] at h
      exact absurd h (by simp)
    · rw [if_neg hq] at h
      obtain rfl : _ = m := Option.some.inj h
      have hq2 : ¬ (betQualifying rows).map Prod.snd = [] := by
        simpa [List.map_eq_nil_iff] using hq
      refine ⟨by simp [List.length_map], rfl, rfl, ?_⟩
      dsimp only
      rw [if_neg hq2]
  · intro rows m h
    rw [calculate_team_ats_metrics, atsFold_spec] at h
    simp only [List.nil_append, Nat.zero_add] at h
    by_cases hq : (atsQualifying rows).map Prod.fst = []
    · rw [if_pos hq] at h
      exact absurd h (by simp)
    · rw [if_neg hq] at h
      obtain rfl : _ = m := Option.some.inj h
      have hlen := length_filter_pos_add_nonpos (atsQualifying rows)
      exact ⟨by simp [List.length_map], by dsimp only; omega, rfl⟩

/-- Witness for C1: the amended theorem applied to a concrete
one-row input. -/
theorem C1_witness :
    ∃ m, calculate_team_metrics [⟨some 100, some 90, some (-5), some 200⟩] = some m ∧
      m.games_played =
        (betQualifying [⟨some 100, some 90, some (-5), some 200⟩]).length := by
  obtain ⟨m, hm⟩ :
      ∃ m, calculate_team_metrics [⟨some 100, some 90, some (-5), some 200⟩] = some m := by
    norm_num [calculate_team_metrics, betStep, listMean]
  exact ⟨m, hm, (C1_theorem.1 _ m hm).1⟩

/-- C2: the claim that every normalizer is total is contradicted by the
code — `parse_total` calls `float(match.group(1))` outside any
try/except, and the captured group class `[\d.]+` admits strings that are
not float literals, so `parse_total("Ov .")` and `parse_total("Un 1.2.3")`
propagate an uncaught `ValueError` (against the function's own docstring
"Returns float or None if parsing fails"). -/
theorem C2_theorem :
    parse_total ("Ov .") = PyRes.valueError ∧
    parse_total ("Un 1.2.3") = PyRes.valueError := by
  exact ⟨by decide, by decide⟩

/-- C3, counterexample to the claim as stated: a record with `ats_diff`
present but `spread` missing is skipped entirely, so `TOTAL_DIFF` is not
the mean of the present `ats_diff` values.  For rows with diffs 4 (spread
missing) and 0 (spread -1) the code reports `TOTAL_DIFF = 0` and
`CRI = 0`, not the mean 2 of the present diffs. -/
theorem C3_counterexample :
    (calculate_team_ats_metrics [⟨some 4, none⟩, ⟨some 0, some (-1)⟩]).map
      (fun m => (m.TOTAL_DIFF, m.CRI)) = some (0, 0) ∧
    listMean [(4 : ℚ), 0] = 2 ∧ (0 : ℚ) ≠ 2 := by
  refine ⟨?_, by norm_num [listMean], by norm_num⟩
  have ha : ((-1 : ℚ) < 0) := by norm_num
  have hb : ¬ ((0 : ℚ) < -1) := by norm_num
  have hc : ¬ ((0 : ℚ) < 0) := lt_irrefl 0
  simp [calculate_team_ats_metrics, atsStep, ha, hb, hc, listMean]

/-- C3 (amended): over the records with BOTH `ats_diff` and `spread`
present, `TOTAL_DIFF` is the arithmetic mean of the diffs, `CRI` is
covers / decided with a push (diff exactly 0) counted in the denominator
as a non-cover, `AVI = -SPI` in the schedule/betting aggregator, and for
diffs [+7, -3, +2] the results are `TOTAL_DIFF = 2` and `CRI = 2/3`. -/
theorem C3_theorem :
    (∀ (rows : List AtsCsvRow) (m : AtsMetrics),
        calculate_team_ats_metrics rows = some m →
        m.TOTAL_DIFF = listMean ((atsQualifying rows).map Prod.fst) ∧
        m.ats_wins = ((atsQualifying rows).filter (fun p => decide (0 < p.1))).length ∧
        m.ats_losses = ((atsQualifying rows).filter (fun p => decide (p.1 ≤ 0))).length ∧
        m.ats_decisions = (atsQualifying rows).length ∧
        m.CRI = (((atsQualifying rows).filter (fun p => decide (0 < p.1))).length : ℚ) /
          ((atsQualifying rows).length : ℚ)) ∧
    (∀ (rows : List BettingCsvRow) (m : Metrics),
        calculate_team_metrics rows = some m → m.AVI = -m.SPI) ∧
    (calculate_team_ats_metrics
        [⟨some 7, some (-1)⟩, ⟨some (-3), some (-1)⟩, ⟨some 2, some (-1)⟩]).map
      (fun m => (m.TOTAL_DIFF, m.CRI)) = some (2, 2/3) := by
  refine ⟨?_, ?_, ?_⟩
  · intro rows m h
    rw [calculate_team_ats_metrics, atsFold_spec] at h
    simp only [List.nil_append, Nat.zero_add] at h
    by_cases hq : (atsQualifying rows).map Prod.fst = []
    · rw [if_pos hq] at h
      exact absurd h (by simp)
    · rw [if_neg hq] at h
      have hlen := length_filter_pos_add_nonpos (atsQualifying rows)
      have hpos : 0 < (atsQualifying rows).length := by
        rcases List.eq_nil_or_concat (atsQualifying rows) with h0 | _
        · exact absurd (by simp [h0]) hq
        · simp [List.length_pos]
          intro hcon
          exact hq (by simp [hcon])
      obtain rfl : _ = m := Option.some.inj h
      refine ⟨rfl, by simp [List.length_map], by simp [List.length_map],
        by dsimp only; omega, ?_⟩
      dsimp only
      rw [if_pos (by omega), hlen]
  · intro rows m h
    rw [calculate_team_metrics, betFold_spec] at h
    simp only [List.nil_append, Nat.zero_add] at h
    by_cases hq : (betQualifying rows).map Prod.fst = []
    · rw [if_pos hq] at h
      exact absurd h (by simp)
    · rw [if_neg hq] at h
      obtain rfl : _ = m := Option.some.inj h
      rfl
  · have ha : ((-1 : ℚ) < 0) := by norm_num
    have hb : ¬ ((0 : ℚ) < -1) := by norm_num
    have hc : (0 : ℚ) < 7 := by norm_num
    have hd : ¬ ((0 : ℚ) < -3) := by norm_num
    have he : (0 : ℚ) < 2 := by norm_num
    simp [calculate_team_ats_metrics, atsStep, ha, hb, hc, hd, he, listMean]
    norm_num

/-- Witness for C3: the amended theorem applied to a concrete
one-row input. -/
theorem C3_witness :
    ∃ m, calculate_team_ats_metrics [⟨some 7, some (-1)⟩] = some m ∧
      m.TOTAL_DIFF = listMean ((atsQualifying [⟨some 7, some (-1)⟩]).map Prod.fst) := by
  obtain ⟨m, hm⟩ : ∃ m, calculate_team_ats_metrics [⟨some 7, some (-1)⟩] = some m := by
    norm_num [calculate_team_ats_metrics, atsStep, listMean]
  exact ⟨m, hm, (C3_theorem.1 _ m hm).1⟩

/-- C4: `FAV_DIFF` is the mean `ats_diff` over the used records with
spread < 0 and `DOG_DIFF` the mean over those with spread > 0, each `none`
when its subset is empty; a pick'em record (spread = 0) counts toward
`TOTAL_DIFF` and `CRI` but toward neither split; and for spreads
[-4, +6, -2] with diffs [+1, -2, +3], `FAV_DIFF = 2` and
`DOG_DIFF = -2`. -/
theorem C4_theorem :
    (∀ (rows : List AtsCsvRow) (m : AtsMetrics),
        calculate_team_ats_metrics rows = some m →
        (m.FAV_DIFF =
          if ((atsQualifying rows).filter (fun p => decide (p.2 < 0))) = [] then none
          else
            some (listMean
              (((atsQualifying rows).filter (fun p => decide (p.2 < 0))).map Prod.fst))) ∧
        (m.DOG_DIFF =
          if ((atsQualifying rows).filter (fun p => decide (0 < p.2))) = [] then none
          else
            some (listMean
              (((atsQualifying rows).filter (fun p => decide (0 < p.2))).map Prod.fst))) ∧
        m.fav_games = ((atsQualifying rows).filter (fun p => decide (p.2 < 0))).length ∧
        m.dog_games = ((atsQualifying rows).filter (fun p => decide (0 < p.2))).length) ∧
    (calculate_team_ats_metrics
        [⟨some 1, some (-4)⟩, ⟨some (-2), some 6⟩, ⟨some 3, some (-2)⟩]).map
      (fun m => (m.FAV_DIFF, m.DOG_DIFF)) = some (some 2, some (-2)) ∧
    (calculate_team_ats_metrics [⟨some 1, some 0⟩]).map
      (fun m => (m.TOTAL_DIFF, m.CRI, m.FAV_DIFF, m.DOG_DIFF)) =
      some (1, 1, none, none) := by
  refine ⟨?_, ?_, ?_⟩
  · intro rows m h
    rw [calculate_team_ats_metrics, atsFold_spec] at h
    simp only [List.nil_append, Nat.zero_add] at h
    by_cases hq : (atsQualifying rows).map Prod.fst = []
    · rw [if_pos hq] at h
      exact absurd h (by simp)
    · rw [if_neg hq] at h
      obtain rfl : _ = m := Option.some.inj h
      refine ⟨?_, ?_, by simp [List.length_map], by simp [List.length_map]⟩
      · dsimp only
        by_cases hf : ((atsQualifying rows).filter (fun p => decide (p.2 < 0))) = [] <;>
          simp [hf]
      · dsimp only
        by_cases hd : ((atsQualifying rows).filter (fun p => decide (0 < p.2))) = [] <;>
          simp [hd]
  · have h1 : ¬ (([1, 3] : List ℚ) = []) := by simp
    have h2 : ¬ (([-2] : List ℚ) = []) := by simp
    norm_num [calculate_team_ats_metrics, atsStep, listMean, h1, h2]
    exact ⟨_, ⟨by simp, rfl⟩, rfl, rfl⟩
  · norm_num [calculate_team_ats_metrics, atsStep, listMean]

/-- Witness for C4: the theorem applied to a concrete one-row input. -/
theorem C4_witness :
    ∃ m, calculate_team_ats_metrics [⟨some 1, some (-4)⟩] = some m ∧
      m.FAV_DIFF =
        (if ((atsQualifying [⟨some 1, some (-4)⟩]).filter (fun p => decide (p.2 < 0))) = []
         then none
         else
           some (listMean
             (((atsQualifying [⟨some 1, some (-4)⟩]).filter
                 (fun p => decide (p.2 < 0))).map Prod.fst))) := by
  obtain ⟨m, hm⟩ : ∃ m, calculate_team_ats_metrics [⟨some 1, some (-4)⟩] = some m := by
    norm_num [calculate_team_ats_metrics, atsStep, listMean]
  exact ⟨m, hm, (C4_theorem.1 _ m hm).1⟩

/-- C5: a slug appears in `get_all_team_metrics` exactly when one of its
row sets yields metrics; the metrics are `none` exactly when no row has
both `ats_diff` and `spread`; a team all of whose rows fail to qualify is
absent from the mapping; and whenever metrics exist the decision and game
counts are positive (no division by zero) and an empty favorite or
underdog subset yields `none`, never 0. -/
theorem C5_theorem :
    (∀ (files : List (String × List AtsCsvRow)) (slug : String) (m : AtsMetrics),
        (slug, m) ∈ get_all_team_metrics files ↔
          ∃ rows, (slug, rows) ∈ files ∧ calculate_team_ats_metrics rows = some m) ∧
    (∀ rows, calculate_team_ats_metrics rows = none ↔ atsQualifying rows = []) ∧
    (∀ (files : List (String × List AtsCsvRow)) (slug : String),
        (∀ rows, (slug, rows) ∈ files → atsQualifying rows = []) →
        ∀ m : AtsMetrics, (slug, m) ∉ get_all_team_metrics files) ∧
    (∀ (rows : List AtsCsvRow) (m : AtsMetrics),
        calculate_team_ats_metrics rows = some m →
        0 < m.ats_decisions ∧ 0 < m.games_played ∧
        (m.fav_games = 0 → m.FAV_DIFF = none) ∧
        (m.dog_games = 0 → m.DOG_DIFF = none)) := by
  have hmem : ∀ (files : List (String × List AtsCsvRow)) (slug : String) (m : AtsMetrics),
      (slug, m) ∈ get_all_team_metrics files ↔
        ∃ rows, (slug, rows) ∈ files ∧ calculate_team_ats_metrics rows = some m := by
    intro files slug m
    rw [get_all_team_metrics, List.mem_filterMap]
    constructor
    · rintro ⟨⟨s, rows⟩, hin, hmap⟩
      rcases Option.map_eq_some'.1 hmap with ⟨m2, hm2, heq⟩
      have h1 : s = slug := congrArg Prod.fst heq
      have h2 : m2 = m := congrArg Prod.snd heq
      subst h1
      subst h2
      exact ⟨rows, hin, hm2⟩
    · rintro ⟨rows, hin, hm⟩
      exact ⟨(slug, rows), hin, by simp [hm]⟩
  have hnone : ∀ rows, calculate_team_ats_metrics rows = none ↔ atsQualifying rows = [] := by
    intro rows
    rw [calculate_team_ats_metrics, atsFold_spec]
    simp only [List.nil_append]
    by_cases hq : (atsQualifying rows).map Prod.fst = []
    · rw [if_pos hq]
      simpa [List.map_eq_nil_iff] using hq
    · rw [if_neg hq]
      have hq2 : ¬ atsQualifying rows = [] := by simpa [List.map_eq_nil_iff] using hq
      simp [hq2]
  refine ⟨hmem, hnone, ?_, ?_⟩
  · intro files slug hempty m hmem2
    rcases (hmem files slug m).1 hmem2 with ⟨rows, hin, hsome⟩
    have := (hnone rows).2 (hempty rows hin)
    rw [this] at hsome
    exact Option.noConfusion hsome
  · intro rows m h
    rw [calculate_team_ats_metrics, atsFold_spec] at h
    simp only [List.nil_append, Nat.zero_add] at h
    by_cases hq : (atsQualifying rows).map Prod.fst = []
    · rw [if_pos hq] at h
      exact absurd h (by simp)
    · rw [if_neg hq] at h
      obtain rfl : _ = m := Option.some.inj h
      have hlen := length_filter_pos_add_nonpos (atsQualifying rows)
      have hq2 : ¬ atsQualifying rows = [] := by simpa [List.map_eq_nil_iff] using hq
      have hpos : 0 < (atsQualifying rows).length := List.length_pos.mpr hq2
      refine ⟨by dsimp only; omega, by simp [List.length_map]; omega, ?_, ?_⟩
      · intro hf
        have hf2 : ((atsQualifying rows).filter (fun p => decide (p.2 < 0))) = [] := by
          simpa [List.length_map, List.length_eq_zero] using hf
        simp [hf2]
      · intro hd
        have hd2 : ((atsQualifying rows).filter (fun p => decide (0 < p.2))) = [] := by
          simpa [List.length_map, List.length_eq_zero] using hd
        simp [hd2]

/-- Witness for C5: the theorem applied to a concrete team with one
non-qualifying row. -/
theorem C5_witness :
    calculate_team_ats_metrics [(⟨some 4, none⟩ : AtsCsvRow)] = none ∧
    ∀ m : AtsMetrics,
      (("no-cover-team"), m) ∉
        get_all_team_metrics [((("no-cover-team"), [(⟨some 4, none⟩ : AtsCsvRow)]))] := by
  constructor
  · exact (C5_theorem.2.1 [⟨some 4, none⟩]).2 (by decide)
  · refine C5_theorem.2.2.1 _ _ ?_
    intro rows hin
    simp at hin
    subst hin
    decide

/-- C6, counterexamples to the claim as stated: a 9-cell betting row whose
first cell is the placeholder dash produces a record (no dash check in the
betting variant); a betting row with a footnote marker in a non-first cell
produces a record (the `note:` check reads only the first cell); and a
7-cell ATS row with a footnote marker in its diff cell produces a record
(no footnote check in the ATS variant). -/
theorem C6_counterexample :
    (∃ g : BettingGame, parse_betting_table
        [[("-"), ("Boston"), (""), ("Home"), (""), (""), (""), (""), ("")]] =
        PyRes.ok [g]) ∧
    (∃ g : BettingGame, parse_betting_table
        [[("Jan 5"), ("Boston"), (""), ("Home"), ("Note: marker"), (""), (""), (""), ("")]] =
        PyRes.ok [g]) ∧
    (∃ g : AtsGame, g.ats_diff = none ∧ parse_ats_table
        [[("Jan 5"), ("Home"), ("Boston"), ("3"), ("-2.5"), ("W by 4"), ("Note: marker")]] =
        [g]) := by
  exact ⟨⟨_, rfl⟩, ⟨_, rfl⟩, ⟨_, rfl, rfl⟩⟩

/-- C6 (amended): a betting-variant row is rejected exactly when it has
fewer than 9 cells, or its cleaned first cell lower-cases to "date",
contains "note:", or is empty; an ATS-variant row is rejected exactly when
it has fewer than 7 cells, or its cleaned first cell lower-cases to
"date", is empty, or is the placeholder dash.  Every other row yields a
record — except that a betting row whose total cell makes `parse_total`
raise aborts the parse. -/
theorem C6_theorem :
    (∀ cells : List String,
        (parse_betting_table [cells] = PyRes.ok [] ↔
          cells.length < 9 ∨
          pyLower (clean_text (cells.getD 0 (""))) = ("date") ∨
          strContainsSub (pyLower (clean_text (cells.getD 0 ("")))) ("note:") = true ∨
          clean_text (cells.getD 0 ("")) = "")) ∧
    (∀ cells : List String,
        parse_betting_table [cells] = PyRes.ok [] ∨
        parse_betting_table [cells] = PyRes.valueError ∨
        ∃ g, parse_betting_table [cells] = PyRes.ok [g]) ∧
    (∀ cells : List String,
        (parse_ats_table [cells] = [] ↔
          cells.length < 7 ∨
          pyLower (clean_text (cells.getD 0 (""))) = ("date") ∨
          clean_text (cells.getD 0 ("")) = "" ∨
          clean_text (cells.getD 0 ("")) = "-")) ∧
    (∀ cells : List String,
        parse_ats_table [cells] = [] ∨ ∃ g, parse_ats_table [cells] = [g]) := by
  refine ⟨?_, ?_, ?_, ?_⟩
  · intro cells
    rw [parse_betting_table]
    by_cases h1 : cells.length < 9
    · rw [if_pos h1]
      simp [parse_betting_table, h1]
    · rw [if_neg h1]
      by_cases h2 : pyLower (clean_text (cells.getD 0 (""))) = ("date") ∨
          strContainsSub (pyLower (clean_text (cells.getD 0 ("")))) ("note:") = true ∨
          clean_text (cells.getD 0 ("")) = ""
      · rw [if_pos (by simp only [Bool.or_eq_true, decide_eq_true_eq]; tauto)]
        simp only [parse_betting_table]
        constructor
        · intro _
          exact Or.inr h2
        · intro _
          trivial
      · rw [if_neg (by simp only [Bool.or_eq_true, decide_eq_true_eq]; tauto)]
        rcases hpt : parse_total (clean_text (cells.getD 7 (""))) with v | _
        · simp only [parse_betting_table]
          constructor
          · intro hcon
            exact absurd hcon (by simp)
          · intro hcon
            rcases hcon with hc | hc
            · exact absurd hc h1
            · exact absurd hc h2
        · constructor
          · intro hcon
            exact PyRes.noConfusion hcon
          · intro hcon
            rcases hcon with hc | hc
            · exact absurd hc h1
            · exact absurd hc h2
  · intro cells
    rw [parse_betting_table]
    by_cases h1 : cells.length < 9
    · rw [if_pos h1]
      exact Or.inl rfl
    · rw [if_neg h1]
      by_cases h2 : (decide (pyLower (clean_text (cells.getD 0 (""))) = ("date")) ||
          strContainsSub (pyLower (clean_text (cells.getD 0 ("")))) ("note:") ||
          decide (clean_text (cells.getD 0 ("")) = "")) = true
      · rw [if_pos h2]
        exact Or.inl rfl
      · rw [if_neg h2]
        rcases hpt : parse_total (clean_text (cells.getD 7 (""))) with v | _
        · simp only [parse_betting_table]
          exact Or.inr (Or.inr ⟨_, rfl⟩)
        · exact Or.inr (Or.inl rfl)
  · intro cells
    rw [parse_ats_table]
    by_cases h1 : cells.length < 7
    · rw [if_pos h1]
      simp [parse_ats_table, h1]
    · rw [if_neg h1]
      by_cases h2 : pyLower (clean_text (cells.getD 0 (""))) = ("date") ∨
          clean_text (cells.getD 0 ("")) = "" ∨
          clean_text (cells.getD 0 ("")) = "-"
      · rw [if_pos (by simp only [Bool.or_eq_true, decide_eq_true_eq]; tauto)]
        simp only [parse_ats_table]
        constructor
        · intro _
          exact Or.inr h2
        · intro _
          trivial
      · rw [if_neg (by simp only [Bool.or_eq_true, decide_eq_true_eq]; tauto)]
        simp only [parse_ats_table]
        constructor
        · intro hcon
          exact absurd hcon (by simp)
        · intro hcon
          rcases hcon with hc | hc
          · exact absurd hc h1
          · exact absurd hc h2
  · intro cells
    rw [parse_ats_table]
    by_cases h1 : cells.length < 7
    · rw [if_pos h1]
      exact Or.inl rfl
    · rw [if_neg h1]
      by_cases h2 : (decide (pyLower (clean_text (cells.getD 0 (""))) = ("date")) ||
          decide (clean_text (cells.getD 0 ("")) = "") ||
          decide (clean_text (cells.getD 0 ("")) = "-")) = true
      · rw [if_pos h2]
        exact Or.inl rfl
      · rw [if_neg h2]
        simp only [parse_ats_table]
        exact Or.inr ⟨_, rfl⟩

/-- C7: each table locator returns the first table in document order whose
headers satisfy its signature and `none` when no table does; in
particular, of two tables where only the second satisfies the
schedule/betting signature, the second is returned. -/
theorem C7_theorem :
    (∀ tables : List Table, find_betting_table tables = none ↔
        ∀ t ∈ tables, bettingTableOk t = false) ∧
    (∀ (pre : List Table) (t : Table) (post : List Table),
        (∀ u ∈ pre, bettingTableOk u = false) → bettingTableOk t = true →
        find_betting_table (pre ++ t :: post) = some t) ∧
    (∀ tables : List Table, find_ats_table tables = none ↔
        ∀ t ∈ tables, atsTableOk t = false) ∧
    (∀ (pre : List Table) (t : Table) (post : List Table),
        (∀ u ∈ pre, atsTableOk u = false) → atsTableOk t = true →
        find_ats_table (pre ++ t :: post) = some t) ∧
    find_betting_table
      [⟨some (some [("Rank"), ("Team"), ("Record")]), some []⟩,
       ⟨some (some [("Date"), ("Opponent"), ("Result"), ("Location"), ("W/L"), ("Div"),
          ("Spread"), ("Total"), ("Money")]), some []⟩] =
      some ⟨some (some [("Date"), ("Opponent"), ("Result"), ("Location"), ("W/L"), ("Div"),
          ("Spread"), ("Total"), ("Money")]), some []⟩ := by
  refine ⟨?_, ?_, ?_, ?_, by decide⟩
  · intro tables
    induction tables with
    | nil => simp [find_betting_table]
    | cons t ts ih =>
      rw [find_betting_table]
      by_cases h : bettingTableOk t = true
      · rw [if_pos h]
        constructor
        · intro hcon
          exact Option.noConfusion hcon
        · intro hall
          rw [hall t (by simp)] at h
          exact Bool.noConfusion h
      · rw [if_neg h, ih]
        rw [Bool.not_eq_true] at h
        constructor
        · intro hall u hu
          rcases List.mem_cons.1 hu with rfl | hu2
          · exact h
          · exact hall u hu2
        · intro hall u hu
          exact hall u (List.mem_cons_of_mem _ hu)
  · intro pre t post hpre ht
    induction pre with
    | nil =>
      rw [List.nil_append, find_betting_table, if_pos ht]
    | cons u us ih =>
      have hu : bettingTableOk u = false := hpre u (by simp)
      rw [List.cons_append, find_betting_table, if_neg (by simp [hu])]
      exact ih (fun v hv => hpre v (List.mem_cons_of_mem _ hv))
  · intro tables
    induction tables with
    | nil => simp [find_ats_table]
    | cons t ts ih =>
      rw [find_ats_table]
      by_cases h : atsTableOk t = true
      · rw [if_pos h]
        constructor
        · intro hcon
          exact Option.noConfusion hcon
        · intro hall
          rw [hall t (by simp)] at h
          exact Bool.noConfusion h
      · rw [if_neg h, ih]
        rw [Bool.not_eq_true] at h
        constructor
        · intro hall u hu
          rcases List.mem_cons.1 hu with rfl | hu2
          · exact h
          · exact hall u hu2
        · intro hall u hu
          exact hall u (List.mem_cons_of_mem _ hu)
  · intro pre t post hpre ht
    induction pre with
    | nil =>
      rw [List.nil_append, find_ats_table, if_pos ht]
    | cons u us ih =>
      have hu : atsTableOk u = false := hpre u (by simp)
      rw [List.cons_append, find_ats_table, if_neg (by simp [hu])]
      exact ih (fun v hv => hpre v (List.mem_cons_of_mem _ hv))

/-- Witness for C7: the first-match property applied to a concrete pair of
tables for the ATS locator. -/
theorem C7_witness :
    find_ats_table
      [⟨some (some [("Rank"), ("Team"), ("Record")]), some []⟩,
       ⟨some (some [("Date"), ("H/A"), ("Opponent"), ("Opp Rank"), ("LAC Line"),
          ("Result"), ("Diff")]), some []⟩] =
      some ⟨some (some [("Date"), ("H/A"), ("Opponent"), ("Opp Rank"), ("LAC Line"),
          ("Result"), ("Diff")]), some []⟩ :=
  C7_theorem.2.2.2.1
    [⟨some (some [("Rank"), ("Team"), ("Record")]), some []⟩]
    ⟨some (some [("Date"), ("H/A"), ("Opponent"), ("Opp Rank"), ("LAC Line"),
        ("Result"), ("Diff")]), some []⟩
    [] (by decide) (by decide)

/-- C8, counterexample to the claim as stated: the over/under indicator is
matched by `re.search` anywhere in the text, not only at the front, and
the over marker is a bare `O`/`o` with optional `v`: `parse_total`
returns 5 on "abc o 5" although the text has no leading indicator and is
not a float. -/
theorem C8_counterexample :
    parse_total ("abc o 5") = PyRes.ok (some 5) ∧ pyFloat ("abc o 5") = none := by
  constructor
  · have h : parse_total ("abc o 5") = PyRes.ok (some (floatRepVal false 5 0)) := by rfl
    rw [h]
    norm_num [floatRepVal]
  · decide

/-- C8 (amended): `parse_total` maps "-"/"N/A" to missing; an over
indicator (`O`/`o`, optional `v`/`V`) or, failing that, an under indicator
(`U`/`u`, optional `n`/`N`), followed by whitespace and a digit/dot run,
may match anywhere in the text, and the run's value is returned regardless
of side; with no indicator match anywhere, the result is the protected
direct float parse of the cleaned text. -/
theorem C8_theorem :
    parse_total ("Ov 229.5") = PyRes.ok (some (459/2)) ∧
    parse_total ("Un 218.0") = PyRes.ok (some 218) ∧
    parse_total ("garbage") = PyRes.ok none ∧
    parse_total ("O 101") = PyRes.ok (some 101) ∧
    parse_total ("u 99") = PyRes.ok (some 99) ∧
    parse_total ("-") = PyRes.ok none ∧
    parse_total ("N/A") = PyRes.ok none ∧
    (∀ s, ovUnSearch 'o' 'v' (clean_text s).data = none →
        ovUnSearch 'u' 'n' (clean_text s).data = none →
        ¬ clean_text s = "" → ¬ clean_text s = "-" → ¬ pyLower (clean_text s) = ("n/a") →
        parse_total s = PyRes.ok (pyFloat (clean_text s))) := by
  refine ⟨?_, ?_, by decide, ?_, ?_, by decide, by decide, ?_⟩
  · have h : parse_total ("Ov 229.5") = PyRes.ok (some (floatRepVal false 2295 1)) := by rfl
    rw [h]; norm_num [floatRepVal]
  · have h : parse_total ("Un 218.0") = PyRes.ok (some (floatRepVal false 2180 1)) := by rfl
    rw [h]; norm_num [floatRepVal]
  · have h : parse_total ("O 101") = PyRes.ok (some (floatRepVal false 101 0)) := by rfl
    rw [h]; norm_num [floatRepVal]
  · have h : parse_total ("u 99") = PyRes.ok (some (floatRepVal false 99 0)) := by rfl
    rw [h]; norm_num [floatRepVal]
  · intro s hov hun h1 h2 h3
    rw [parse_total]
    rw [if_neg (by simp [h1, h2, h3]), hov, hun]

/-- Witness for C8: the no-indicator fallback clause applied to a concrete
input. -/
theorem C8_witness :
    parse_total ("zzz") = PyRes.ok (pyFloat (clean_text ("zzz"))) :=
  C8_theorem.2.2.2.2.2.2.2 ("zzz") (by decide) (by decide) (by decide) (by decide) (by decide)

/-- C9, counterexample to the claim as stated: on "3+5" the claimed
algorithm — strip a leading `+` (there is none) and float-parse — yields
missing (`pyFloat "3+5" = none`), but the schedule/betting `parse_spread`
removes EVERY `+` before parsing and returns 35. -/
theorem C9_counterexample :
    parse_spread_tr ("3+5") = some 35 ∧ pyFloat ("3+5") = none := by
  constructor
  · have h : parse_spread_tr ("3+5") = some (floatRepVal false 35 0) := by rfl
    rw [h]; norm_num [floatRepVal]
  · decide

/-- C9 (amended): both spread normalizers clean the text and map the empty
string, "-", "N/A" and "PK" (any case) to missing; the schedule/betting
implementation then removes every `+` character (not only a leading one)
before the float parse, while the ATS implementation float-parses the
cleaned text directly; `parseSpread("PK") = missing`,
`parseSpread("-6.0") = -6.0` and `parseSpread("+3.5") = 3.5` hold in
both. -/
theorem C9_theorem :
    (∀ s, (clean_text s = "" ∨ clean_text s = "-" ∨ pyLower (clean_text s) = ("n/a") ∨
        pyLower (clean_text s) = ("pk")) →
      parse_spread_tr s = none ∧ parse_spread_ats s = none) ∧
    (∀ s, ¬ clean_text s = "" → ¬ clean_text s = "-" → ¬ pyLower (clean_text s) = ("n/a") →
        ¬ pyLower (clean_text s) = ("pk") →
      parse_spread_tr s = pyFloat ⟨(clean_text s).data.filter (fun c => c ≠ '+')⟩ ∧
      parse_spread_ats s = pyFloat (clean_text s)) ∧
    parse_spread_tr ("PK") = none ∧ parse_spread_ats ("pk") = none ∧
    parse_spread_tr (" -6.0 ") = some (-6) ∧ parse_spread_ats ("-6.0") = some (-6) ∧
    parse_spread_tr ("+3.5") = some (7/2) ∧ parse_spread_ats ("+3.5") = some (7/2) := by
  refine ⟨?_, ?_, by decide, by decide, ?_, ?_, ?_, ?_⟩
  · intro s h
    constructor
    · rw [parse_spread_tr]
      rw [if_pos (by rcases h with h | h | h | h <;> simp [h])]
    · rw [parse_spread_ats]
      rw [if_pos (by rcases h with h | h | h | h <;> simp [h])]
  · intro s h1 h2 h3 h4
    constructor
    · rw [parse_spread_tr]
      rw [if_neg (by simp [h1, h2, h3, h4])]
    · rw [parse_spread_ats]
      rw [if_neg (by simp [h1, h2, h3, h4])]
  · have h : parse_spread_tr (" -6.0 ") = some (floatRepVal true 60 1) := by rfl
    rw [h]; norm_num [floatRepVal]
  · have h : parse_spread_ats ("-6.0") = some (floatRepVal true 60 1) := by rfl
    rw [h]; norm_num [floatRepVal]
  · have h : parse_spread_tr ("+3.5") = some (floatRepVal false 35 1) := by rfl
    rw [h]; norm_num [floatRepVal]
  · have h : parse_spread_ats ("+3.5") = some (floatRepVal false 35 1) := by rfl
    rw [h]; norm_num [floatRepVal]

/-- Witness for C9: the sentinel clause applied to a concrete input. -/
theorem C9_witness :
    parse_spread_tr ("PK") = none ∧ parse_spread_ats ("PK") = none :=
  C9_theorem.1 ("PK") (Or.inr (Or.inr (Or.inr (by decide))))

/-- C10, counterexample: the two `parse_spread` implementations disagree
on "5+" — the ATS one fails the float parse and returns missing, the
schedule/betting one deletes the `+` and returns 5. -/
theorem C10_counterexample :
    parse_spread_ats ("5+") = none ∧ parse_spread_tr ("5+") = some 5 := by
  constructor
  · decide
  · have h : parse_spread_tr ("5+") = some (floatRepVal false 5 0) := by rfl
    rw [h]; norm_num [floatRepVal]

/-- C10 (amended): the two `parse_spread` implementations agree on every
input whose cleaned text contains no `+` character, and also on a
canonical signed spread such as "+3.5"; with a stray `+` present they can
differ. -/
theorem C10_theorem :
    (∀ s : String, ('+') ∉ (clean_text s).data →
        parse_spread_ats s = parse_spread_tr s) ∧
    parse_spread_ats ("+3.5") = parse_spread_tr ("+3.5") := by
  constructor
  · intro s h
    rw [parse_spread_ats, parse_spread_tr]
    have hf : (clean_text s).data.filter (fun c => c ≠ '+') = (clean_text s).data := by
      refine List.filter_eq_self.mpr ?_
      intro a ha
      simp only [decide_eq_true_eq]
      intro h2
      exact h (h2 ▸ ha)
    rw [hf]
  · rfl

/-- Witness for C10: the agreement theorem applied to a concrete
plus-free input. -/
theorem C10_witness :
    parse_spread_ats ("-6.0") = parse_spread_tr ("-6.0") :=
  C10_theorem.1 ("-6.0") (by decide)

end NbaBetInfo
